import Mathlib

/-!
Verification development for the be-ota-backend IoT telemetry gateway.

The repository is a Node.js service that ingests MQTT telemetry into an
SQLite database, derives a device liveness status, and manages firmware
binaries in a Firebase Storage bucket together with an append-only
latest-stable-version pointer table.

Each definition below is a shallow embedding of one function of the source,
with the SQLite tables modelled as Lean lists of row structures (insertion
order = id order, matching the AUTOINCREMENT primary keys) and the Firebase
bucket modelled as a list of named objects.  File and line references name
the embedded source location.
-/

/-! ## Firmware version validation

Embeds validateFirmwareVersion, the regex test
  /^\d+\.\d+\.\d+$/
appearing in src/database/queries.js lines 246-249 and src/routes/index.js
lines 87-90.  The regex accepts exactly: one or more ASCII digits, a dot,
one or more digits, a dot, one or more digits. -/

/-- Split a character list into its leading run of ASCII digits and the rest
(the greedy match of a single regex atom like the backslash-d-plus atom). -/
def takeDigits (l : List Char) : List Char × List Char :=
  (l.takeWhile Char.isDigit, l.dropWhile Char.isDigit)

/-- validateFirmwareVersion (queries.js 246-249): test of the anchored regex
for major.minor.patch, each component a nonempty digit sequence. -/
def validateFirmwareVersion (version : String) : Bool :=
  match takeDigits version.data with
  | (d1, rest1) =>
    match d1, rest1 with
    | _ :: _, '.' :: rest2 =>
      (match takeDigits rest2 with
       | (d2, rest3) =>
         match d2, rest3 with
         | _ :: _, '.' :: rest4 =>
           (match takeDigits rest4 with
            | (d3, rest5) => !d3.isEmpty && rest5.isEmpty)
         | _, _ => false)
    | _, _ => false

/-! ## The LatestStableFirmware table

Schema (connection.js 83-95 / queries.js 56-68):
  id INTEGER PRIMARY KEY AUTOINCREMENT, firmwareVersion TEXT (nullable),
  timestamp DATETIME DEFAULT CURRENT_TIMESTAMP.
Rows are modelled in insertion order; timestamp is modelled as epoch
seconds (CURRENT_TIMESTAMP has whole-second granularity). -/

structure LSFRow where
  id : Nat
  firmwareVersion : Option String
  timestamp : Nat
deriving DecidableEq, Repr

/-- Outcome passed to the callback of setLatestStableFirmwareVersion:
either the validation error object or the success message object
(queries.js 251-268).  The storage-failure branch of db.run is not
modelled (storage is assumed to accept the insert). -/
inductive SetVersionResult where
  | validationError (error : String)
  | ok (message : String)
deriving DecidableEq, Repr

/-- Next AUTOINCREMENT id for the LatestStableFirmware table. -/
def nextLSFId (st : List LSFRow) : Nat :=
  st.foldl (fun m r => max m r.id) 0 + 1

/-- setLatestStableFirmwareVersion (queries.js 244-270): validates the
major.minor.patch format first and, only when valid, appends a new pointer
row stamped with the current time (the now argument). -/
def setLatestStableFirmwareVersion (st : List LSFRow) (firmwareVersion : String)
    (now : Nat) : SetVersionResult × List LSFRow :=
  if !(validateFirmwareVersion firmwareVersion) then
    (SetVersionResult.validationError
      "Invalid firmware version format. Use major.minor.patch (e.g., 1.0.2)", st)
  else
    (SetVersionResult.ok "Latest stable firmware version set successfully",
      st ++ [{ id := nextLSFId st, firmwareVersion := some firmwareVersion,
               timestamp := now }])

/-- Comparison step of ORDER BY timestamp DESC LIMIT 1: keep the row with
the larger timestamp.  SQL leaves the order of equal keys unspecified; the
theorems below only rely on the strictly-greater case. -/
def laterRow (a b : LSFRow) : LSFRow :=
  if a.timestamp ≤ b.timestamp then b else a

/-- The row returned by ORDER BY timestamp DESC LIMIT 1, or none when the
table is empty. -/
def maxTimestampRow : List LSFRow → Option LSFRow
  | [] => none
  | r :: rs => some (rs.foldl laterRow r)

/-- fetchLatestStableFirmwareVersion (queries.js 283-298):
SELECT firmwareVersion FROM LatestStableFirmware ORDER BY timestamp DESC
LIMIT 1.  Returns none when no row exists, otherwise the (nullable)
firmwareVersion column of the newest row. -/
def fetchLatestStableFirmwareVersion (st : List LSFRow) : Option (Option String) :=
  match maxTimestampRow st with
  | none => none
  | some r => some r.firmwareVersion

/-! ## HTTP responses and the GET /latest-stable-firmware handler -/

structure HttpResponse where
  status : Nat
  body : String
deriving DecidableEq, Repr

/-- GET /latest-stable-firmware handler (routes/index.js 179-199): on a
successful query it answers 404 when the JavaScript condition
  !result || !result.firmwareVersion
holds, i.e. when no row came back or the firmwareVersion field is null,
undefined or the empty string (the only falsy string); otherwise 200 with
the version.  The storage-error 500 branch is outside the model. -/
def latestStableFirmwareHandler (st : List LSFRow) : HttpResponse :=
  match fetchLatestStableFirmwareVersion st with
  | none => { status := 404, body := "No stable firmware version found" }
  | some result =>
    match result with
    | none => { status := 404, body := "No stable firmware version found" }
    | some v =>
      if v = "" then { status := 404, body := "No stable firmware version found" }
      else { status := 200, body := v }

/-! ## The SerialMessages table

Schema (connection.js 69-80): id INTEGER PRIMARY KEY AUTOINCREMENT,
message TEXT NOT NULL. -/

structure SerialRow where
  message : String
deriving DecidableEq, Repr

/-- insertSerialMessage (queries.js 191-203): a bare INSERT with no
JavaScript-side check.  An absent or null argument binds SQL NULL, the
NOT NULL constraint on the message column fails and no row is created
(the error is only logged); any actual string, including the empty
string, is stored verbatim. -/
def insertSerialMessage (table : List SerialRow) (serialMessage : Option String) :
    List SerialRow :=
  match serialMessage with
  | none => table
  | some m => table ++ [{ message := m }]

/-! ## Device liveness (checkDeviceStatus)

queries.js 157-179: the SQL query returns the newest SensorData row
together with
  time_difference = strftime(now) - strftime(timestamp)
in whole seconds; the JavaScript then tests
  timeDifference !== null && timeDifference <= 30.
Since time_difference is null exactly when no row exists (rows written
through the schema always carry a parseable CURRENT_TIMESTAMP default),
the row cases below are exhaustive. -/

structure StatusQueryRow where
  timestamp : String
  time_difference : Int
deriving DecidableEq, Repr

structure DeviceStatus where
  status : String
  lastSeen : String
deriving DecidableEq, Repr

/-- The callback result construction of checkDeviceStatus
(queries.js 170-176). -/
def checkDeviceStatus (row : Option StatusQueryRow) : DeviceStatus :=
  match row with
  | some r =>
    if r.time_difference ≤ 30 then { status := "Online", lastSeen := r.timestamp }
    else { status := "Offline", lastSeen := r.timestamp }
  | none => { status := "Offline", lastSeen := "N/A" }

/-- A stored sensor reading as seen by the liveness query: the stored
timestamp text and its strftime epoch-seconds value. -/
structure StoredReading where
  timestamp : String
  epochSeconds : Int
deriving DecidableEq, Repr

/-- checkDeviceStatus evaluated at query time now: the SQL computes
time_difference = now - epochSeconds for the newest reading, if any. -/
def checkDeviceStatusAt (now : Int) (reading : Option StoredReading) : DeviceStatus :=
  checkDeviceStatus (reading.map fun r =>
    { timestamp := r.timestamp, time_difference := now - r.epochSeconds })

/-! ## JSON values and the MQTT message dispatcher

mqttHandler.js 21-47: each inbound payload is fed to JSON.parse inside a
try block; the parsed value is then classified by its messageType field.
A parsed object is modelled as an association list with distinct keys
(JSON.parse output never has duplicate keys), numbers as decimal
mantissa times ten to the exponent (the dispatcher never inspects
numeric values). -/

inductive JValue where
  | jnull : JValue
  | jbool (b : Bool) : JValue
  | jnum (mantissa : Int) (exponent : Int) : JValue
  | jstr (s : String) : JValue
  | jarr (elems : List JValue) : JValue
  | jobj (fields : List (String × JValue)) : JValue

/-- First binding of a key in an association list (keys are distinct in
parsed JSON, so first = only). -/
def lookupField : List (String × JValue) → String → Option JValue
  | [], _ => none
  | (k, v) :: rest, key => if k = key then some v else lookupField rest key

/-- JavaScript member access obj.key on a parsed JSON value: a missing key,
or access on a non-object, yields undefined (none). -/
def getField (v : JValue) (key : String) : Option JValue :=
  match v with
  | JValue.jobj fields => lookupField fields key
  | _ => none

/-- JavaScript strict equality of a (possibly undefined) field against a
string literal, as in messageObject.messageType === "data": true only for
a string of exactly that text. -/
def strictEqString (v : Option JValue) (s : String) : Bool :=
  match v with
  | some (JValue.jstr t) => t == s
  | _ => false

/-- A SensorData row as written by insertData: each bound parameter may be
NULL (none) because node-sqlite3 binds undefined and null as SQL NULL and
the schema declares no NOT NULL on these columns. -/
structure SensorDataRow where
  temperature : Option JValue
  humidity : Option JValue
  fanState : Option JValue
  heaterState : Option JValue
  deviceID : Option JValue
  firmwareVersion : Option JValue

/-- The storage calls the dispatcher can issue (queries.js insertData and
insertSerialMessage), with the JavaScript argument values it passes. -/
inductive StorageCall where
  | insertDataCall (temperature humidity fanState heaterState deviceID firmwareVersion :
      Option JValue) : StorageCall
  | insertSerialMessageCall (message : Option JValue) : StorageCall

/-- insertData (queries.js 106-117): a bare INSERT of the six given values
into SensorData; no field-presence or type check is performed, absent
values are stored as NULL. -/
def insertData (table : List SensorDataRow)
    (temperature humidity fanState heaterState deviceID firmwareVersion :
      Option JValue) : List SensorDataRow :=
  table ++ [{ temperature := temperature, humidity := humidity,
              fanState := fanState, heaterState := heaterState,
              deviceID := deviceID, firmwareVersion := firmwareVersion }]

/-- The message listener body of handleMQTTMessages (mqttHandler.js 21-47).
The argument is the JSON.parse outcome: none when parsing threw (the catch
block logs and issues no storage call), some v for a parsed value v.
A data message destructures {temperature, humidity, heaterState, deviceID,
version} from the object and calls insertData with the literal false as
the fanState argument (line 36); a serial message calls insertSerialMessage
with the serialMessage field; anything else is only logged. -/
def handleMQTTMessage (parsed : Option JValue) : List StorageCall :=
  match parsed with
  | none => []
  | some messageObject =>
    if strictEqString (getField messageObject "messageType") "data" then
      [StorageCall.insertDataCall
        (getField messageObject "temperature")
        (getField messageObject "humidity")
        (some (JValue.jbool false))
        (getField messageObject "heaterState")
        (getField messageObject "deviceID")
        (getField messageObject "version")]
    else if strictEqString (getField messageObject "messageType") "serial" then
      [StorageCall.insertSerialMessageCall (getField messageObject "serialMessage")]
    else []

/-! ## Users table and the registration handler

Schema (queries.js 71-83): id INTEGER PRIMARY KEY AUTOINCREMENT,
username TEXT UNIQUE, password TEXT.
Validators from src/validators/validator.js; the embedding models the
regexes on line-terminator-free strings (the JavaScript dollar anchor
additionally tolerates one trailing newline, a quirk no caller relies
on). -/

/-- validateUsername (validator.js 8-11): the anchored regex
[a-zA-Z0-9_] repeated at least 3 times. -/
def validateUsername (username : String) : Bool :=
  decide (3 ≤ username.data.length) &&
    username.data.all (fun c => c.isAlphanum || c == '_')

/-- The character class [!@#$%^&*] of the password regex. -/
def isPasswordSpecialChar (c : Char) : Bool :=
  c == '!' || c == '@' || c == '#' || c == '$' ||
  c == '%' || c == '^' || c == '&' || c == '*'

/-- validatePassword (validator.js 21-24): lookaheads for a digit, a
special character, a lowercase and an uppercase ASCII letter, then at
least 6 characters. -/
def validatePassword (password : String) : Bool :=
  password.data.any Char.isDigit &&
  password.data.any isPasswordSpecialChar &&
  password.data.any Char.isLower &&
  password.data.any Char.isUpper &&
  decide (6 ≤ password.data.length)

structure UserRow where
  id : Nat
  username : String
  password : String
deriving DecidableEq, Repr

/-- findUserByUsername (queries.js 310-314):
SELECT * FROM users WHERE username = ? (first matching row or none). -/
def findUserByUsername (table : List UserRow) (username : String) : Option UserRow :=
  table.find? (fun u => u.username == username)

/-- Next AUTOINCREMENT id for the users table. -/
def nextUserId (table : List UserRow) : Nat :=
  table.foldl (fun m r => max m r.id) 0 + 1

/-- createUser (queries.js 300-308): INSERT INTO users; the UNIQUE
constraint on username makes a duplicate insert fail (err passed to the
callback, no row added); otherwise the row is appended. -/
def createUser (table : List UserRow) (username password : String) :
    Option String × List UserRow :=
  if table.any (fun u => u.username == username) then
    (some "UNIQUE constraint failed: users.username", table)
  else
    (none, table ++ [{ id := nextUserId table, username := username,
                       password := password }])

/-- POST /register handler (routes/auth.js 9-35): validates username and
password, answers 400 with a specific message when the username already
exists (the createUser call is never reached in that case), 500 on a
storage error, 201 on success. -/
def registerHandler (table : List UserRow) (username password : String) :
    HttpResponse × List UserRow :=
  if !(validateUsername username) then
    ({ status := 400,
       body := "Username must be at least 3 characters long and contain only alphanumeric characters and underscores" },
     table)
  else if !(validatePassword password) then
    ({ status := 400,
       body := "Password must be at least 6 characters long and contain at least one uppercase letter, one lowercase letter, one number, and one special character" },
     table)
  else
    match findUserByUsername table username with
    | some _ => ({ status := 400, body := "Username already exists" }, table)
    | none =>
      match createUser table username password with
      | (some _, t) => ({ status := 500, body := "Internal Server Error" }, t)
      | (none, t) => ({ status := 201, body := "User registered successfully" }, t)

/-! ## Firebase Storage: firmware upload and version listing

src/database/firebaseStorage.js.  The bucket is modelled as a list of
stored objects in creation order; getFiles with a prefix option returns
the objects whose full name starts with that string. -/

structure StoredObject where
  name : String
  contents : String
  contentType : String
deriving DecidableEq, Repr

structure UploadFile where
  buffer : String
  mimetype : String
deriving DecidableEq, Repr

/-- Raw string prefix test on object names (Google Cloud Storage prefix
listing semantics), computed on the underlying character lists. -/
def strStartsWith (s p : String) : Bool :=
  p.data.isPrefixOf s.data

/-- uploadFileToFirebaseStorage (firebaseStorage.js 17-49): list the
objects under firmware/(version)/, delete every one of them, then save the
new binary at firmware/(version)/firmware.bin (save overwrites any object
of the same name, though none can remain after the deletions). -/
def uploadFileToFirebaseStorage (bucket : List StoredObject) (file : UploadFile)
    (firmwareVersion : String) : List StoredObject :=
  let destinationPath := "firmware/" ++ firmwareVersion ++ "/firmware.bin"
  let versionDir := "firmware/" ++ firmwareVersion ++ "/"
  let remaining := bucket.filter (fun o => !(strStartsWith o.name versionDir))
  remaining.filter (fun o => o.name != destinationPath) ++
    [{ name := destinationPath, contents := file.buffer,
       contentType := file.mimetype }]

/-- The character class [\d\.] of the listing regex in
firebaseStorage.js line 72. -/
def digitOrDot (c : Char) : Bool :=
  c.isDigit || c == '.'

/-- The match of filePath against the anchored regex
  firmware/([\d\.]+)/firmware\.bin
of firebaseStorage.js 72-73, returning the captured group.  The greedy
character-class plus is the leading run of digit-or-dot characters after
the firmware/ header (a slash can never belong to it). -/
def extractVersion (filePath : String) : Option String :=
  let cs := filePath.data
  if cs.take 9 = "firmware/".data then
    let rest := cs.drop 9
    let ver := rest.takeWhile digitOrDot
    let after := rest.dropWhile digitOrDot
    if ver ≠ [] ∧ after = "/firmware.bin".data then some (String.mk ver) else none
  else none

/-- One iteration of the files.forEach loop in listFirmwareVersions
(firebaseStorage.js 68-81): insert the extracted version into the Set
(JavaScript Set insertion keeps the first occurrence). -/
def stepVersions (versions : List String) (filePath : String) : List String :=
  match extractVersion filePath with
  | some version => if version ∈ versions then versions else versions ++ [version]
  | none => versions

/-- listFirmwareVersions (firebaseStorage.js 56-89): fold the extraction
over every object name of the bucket and return the deduplicated
versions. -/
def listFirmwareVersions (files : List String) : List String :=
  files.foldl stepVersions []

/-! ## Helper lemmas -/

theorem stringEqOfData {s t : String} (h : s.data = t.data) : s = t := by
  cases s with
  | mk d1 =>
    cases t with
    | mk d2 => exact congrArg String.mk h

theorem findEqSomeOfPred {α : Type} (p : α → Bool) (l : List α) (a : α)
    (ha : a ∈ l) (hpa : p a = true) : ∃ b, l.find? p = some b := by
  induction l with
  | nil => cases ha
  | cons x xs ih =>
    by_cases hx : p x = true
    · exact ⟨x, List.find?_cons_of_pos _ hx⟩
    · rcases List.mem_cons.mp ha with h | h
      · exact absurd (h ▸ hpa) hx
      · obtain ⟨b, hb⟩ := ih h
        exact ⟨b, by rw [List.find?_cons_of_neg _ hx, hb]⟩

theorem foldl_laterRow_last (l : List LSFRow) (a n : LSFRow)
    (ha : a.timestamp < n.timestamp)
    (hl : ∀ r ∈ l, r.timestamp < n.timestamp) :
    (l ++ [n]).foldl laterRow a = n := by
  induction l generalizing a with
  | nil => simp [laterRow, Nat.le_of_lt ha]
  | cons x xs ih =>
    have hx := hl x (List.mem_cons_self x xs)
    have hacc : (laterRow a x).timestamp < n.timestamp := by
      unfold laterRow; split <;> assumption
    simp only [List.cons_append, List.foldl_cons]
    exact ih (laterRow a x) hacc (fun r hr => hl r (List.mem_cons_of_mem _ hr))

theorem maxTimestampRow_append (st : List LSFRow) (n : LSFRow)
    (h : ∀ r ∈ st, r.timestamp < n.timestamp) :
    maxTimestampRow (st ++ [n]) = some n := by
  cases st with
  | nil => rfl
  | cons r rs =>
    simp only [List.cons_append, maxTimestampRow, Option.some.injEq]
    exact foldl_laterRow_last rs r n (h r (List.mem_cons_self r rs))
      (fun x hx => h x (List.mem_cons_of_mem _ hx))

theorem strictEqString_true_iff (v : Option JValue) (s : String) :
    strictEqString v s = true ↔ v = some (JValue.jstr s) := by
  cases v with
  | none => simp [strictEqString]
  | some u => cases u <;> simp [strictEqString]

/-! ## C1, C5: the stable-version pointer -/

/-- C1: for every valid major.minor.patch string, setLatestStableFirmwareVersion
succeeds by appending a pointer row, and a subsequent
fetchLatestStableFirmwareVersion returns the version of the most recently
inserted row.  The hypothesis hts states that the insertion clock is ahead
of every stored timestamp; with the one-second granularity of
CURRENT_TIMESTAMP this is what makes the ORDER BY timestamp DESC row and
the newest row by insertion order coincide. -/
theorem setStableThenFetchReturnsNewest (st : List LSFRow) (v : String) (now : Nat)
    (hv : validateFirmwareVersion v = true)
    (hts : ∀ r ∈ st, r.timestamp < now) :
    setLatestStableFirmwareVersion st v now =
      (SetVersionResult.ok "Latest stable firmware version set successfully",
        st ++ [{ id := nextLSFId st, firmwareVersion := some v, timestamp := now }]) ∧
    fetchLatestStableFirmwareVersion (setLatestStableFirmwareVersion st v now).2 =
      some (some v) := by
  have h1 : setLatestStableFirmwareVersion st v now =
      (SetVersionResult.ok "Latest stable firmware version set successfully",
        st ++ [{ id := nextLSFId st, firmwareVersion := some v, timestamp := now }]) := by
    simp [setLatestStableFirmwareVersion, hv]
  refine ⟨h1, ?_⟩
  rw [h1]
  unfold fetchLatestStableFirmwareVersion
  rw [maxTimestampRow_append st _ (fun r hr => hts r hr)]

theorem setStableThenFetchReturnsNewestW :
    setLatestStableFirmwareVersion [⟨1, some "0.9.0", 10⟩] "1.0.0" 20 =
      (SetVersionResult.ok "Latest stable firmware version set successfully",
        [⟨1, some "0.9.0", 10⟩, ⟨2, some "1.0.0", 20⟩]) ∧
    fetchLatestStableFirmwareVersion
        (setLatestStableFirmwareVersion [⟨1, some "0.9.0", 10⟩] "1.0.0" 20).2 =
      some (some "1.0.0") :=
  setStableThenFetchReturnsNewest [⟨1, some "0.9.0", 10⟩] "1.0.0" 20 (by decide)
    (by decide)

/-- C5: for every string not matching the major.minor.patch pattern,
setLatestStableFirmwareVersion fails with the validation-error callback
value and performs no storage write, leaving the LatestStableFirmware
table unchanged; the check sits inside the persistence layer itself
(queries.js 246-253), in addition to the identical check in the route
handler (routes/index.js 140-144). -/
theorem setStableRejectsInvalidFormat (st : List LSFRow) (v : String) (now : Nat)
    (hv : validateFirmwareVersion v = false) :
    setLatestStableFirmwareVersion st v now =
      (SetVersionResult.validationError
        "Invalid firmware version format. Use major.minor.patch (e.g., 1.0.2)", st) := by
  simp [setLatestStableFirmwareVersion, hv]

theorem setStableRejectsInvalidFormatW :
    validateFirmwareVersion "1.0" = false ∧
    validateFirmwareVersion "v1.0.0" = false ∧
    validateFirmwareVersion "1.0.0.0" = false ∧
    setLatestStableFirmwareVersion [⟨1, some "1.0.0", 5⟩] "1.0" 9 =
      (SetVersionResult.validationError
        "Invalid firmware version format. Use major.minor.patch (e.g., 1.0.2)",
       [⟨1, some "1.0.0", 5⟩]) ∧
    setLatestStableFirmwareVersion [] "v1.0.0" 0 =
      (SetVersionResult.validationError
        "Invalid firmware version format. Use major.minor.patch (e.g., 1.0.2)", []) ∧
    setLatestStableFirmwareVersion [] "1.0.0.0" 0 =
      (SetVersionResult.validationError
        "Invalid firmware version format. Use major.minor.patch (e.g., 1.0.2)", []) :=
  ⟨by decide, by decide, by decide,
   setStableRejectsInvalidFormat [⟨1, some "1.0.0", 5⟩] "1.0" 9 (by decide),
   setStableRejectsInvalidFormat [] "v1.0.0" 0 (by decide),
   setStableRejectsInvalidFormat [] "1.0.0.0" 0 (by decide)⟩

/-! ## C2: device liveness -/

/-- C2: checkDeviceStatus returns Offline with the literal string N/A when
no reading exists; Online with the stored timestamp when the age in whole
seconds at query time is at most 30 (the boundary age of exactly 30
included); Offline with the stored timestamp when the age exceeds 30. -/
theorem checkDeviceStatusSpec (now : Int) (r : StoredReading) :
    checkDeviceStatusAt now none = { status := "Offline", lastSeen := "N/A" } ∧
    (now - r.epochSeconds ≤ 30 →
      checkDeviceStatusAt now (some r) =
        { status := "Online", lastSeen := r.timestamp }) ∧
    (now - r.epochSeconds = 30 →
      checkDeviceStatusAt now (some r) =
        { status := "Online", lastSeen := r.timestamp }) ∧
    (30 < now - r.epochSeconds →
      checkDeviceStatusAt now (some r) =
        { status := "Offline", lastSeen := r.timestamp }) := by
  refine ⟨rfl, ?_, ?_, ?_⟩
  · intro h
    simp [checkDeviceStatusAt, checkDeviceStatus, h]
  · intro h
    simp [checkDeviceStatusAt, checkDeviceStatus, h]
  · intro h
    have hn : ¬ (now - r.epochSeconds ≤ 30) := not_le.mpr h
    simp [checkDeviceStatusAt, checkDeviceStatus, hn]

theorem checkDeviceStatusSpecW :
    checkDeviceStatusAt 100 none = { status := "Offline", lastSeen := "N/A" } ∧
    checkDeviceStatusAt 100 (some ⟨"2024-01-01 00:01:10", 70⟩) =
      { status := "Online", lastSeen := "2024-01-01 00:01:10" } ∧
    checkDeviceStatusAt 100 (some ⟨"2024-01-01 00:01:00", 60⟩) =
      { status := "Offline", lastSeen := "2024-01-01 00:01:00" } :=
  ⟨(checkDeviceStatusSpec 100 ⟨"x", 0⟩).1,
   (checkDeviceStatusSpec 100 ⟨"2024-01-01 00:01:10", 70⟩).2.2.1 (by decide),
   (checkDeviceStatusSpec 100 ⟨"2024-01-01 00:01:00", 60⟩).2.2.2 (by decide)⟩

/-! ## C6: the serial-message storage boundary -/

/-- C6 counterexample: an empty (but present) message argument is NOT
rejected by insertSerialMessage: the INSERT has no emptiness check and the
NOT NULL constraint does not exclude the empty string, so a row with an
empty message string is created. -/
theorem insertSerialMessageEmptyStored :
    insertSerialMessage [] (some "") = [{ message := "" }] ∧
    insertSerialMessage [] (some "") ≠ [] ∧
    ({ message := "" } : SerialRow).message = "" := by
  decide

/-- C6 amended: an absent (null or undefined) message argument is rejected
at the storage boundary by the NOT NULL constraint on the message column,
creating no row; a present message string, including the empty string, is
stored verbatim without coercion, so stored rows can carry an empty
message. -/
theorem insertSerialMessageBoundary (table : List SerialRow) (m : String) :
    insertSerialMessage table none = table ∧
    insertSerialMessage table (some m) = table ++ [{ message := m }] :=
  ⟨rfl, rfl⟩

/-! ## C3, C9: the MQTT dispatcher -/

/-- C3: the dispatcher issues exactly one insertData call, with the fixed
default false as the fanState argument, for a parsed object whose
messageType is the string data; exactly one insertSerialMessage call with
the serialMessage field for messageType serial; no storage call for any
other or missing messageType; and no storage call (and no crash, the
handler being total) when JSON parsing failed. -/
theorem handleMQTTDispatchSpec (obj : JValue) :
    (getField obj "messageType" = some (JValue.jstr "data") →
      handleMQTTMessage (some obj) =
        [StorageCall.insertDataCall (getField obj "temperature")
          (getField obj "humidity") (some (JValue.jbool false))
          (getField obj "heaterState") (getField obj "deviceID")
          (getField obj "version")]) ∧
    (getField obj "messageType" = some (JValue.jstr "serial") →
      handleMQTTMessage (some obj) =
        [StorageCall.insertSerialMessageCall (getField obj "serialMessage")]) ∧
    (getField obj "messageType" ≠ some (JValue.jstr "data") →
      getField obj "messageType" ≠ some (JValue.jstr "serial") →
      handleMQTTMessage (some obj) = []) ∧
    handleMQTTMessage none = [] := by
  refine ⟨?_, ?_, ?_, rfl⟩
  · intro h
    simp [handleMQTTMessage, h, strictEqString]
  · intro h
    have hd : strictEqString (getField obj "messageType") "data" = false := by
      rw [h]; decide
    simp [handleMQTTMessage, hd, h, strictEqString]
  · intro h1 h2
    have e1 : strictEqString (getField obj "messageType") "data" = false := by
      cases he : strictEqString (getField obj "messageType") "data" with
      | false => rfl
      | true => exact absurd ((strictEqString_true_iff _ _).mp he) h1
    have e2 : strictEqString (getField obj "messageType") "serial" = false := by
      cases he : strictEqString (getField obj "messageType") "serial" with
      | false => rfl
      | true => exact absurd ((strictEqString_true_iff _ _).mp he) h2
    simp [handleMQTTMessage, e1, e2]

theorem handleMQTTDispatchSpecW :
    handleMQTTMessage (some (JValue.jobj
        [("messageType", JValue.jstr "data"), ("temperature", JValue.jnum 215 (-1)),
         ("humidity", JValue.jnum 40 0), ("heaterState", JValue.jstr "ON"),
         ("deviceID", JValue.jstr "d1"), ("version", JValue.jstr "1.0.0")])) =
      [StorageCall.insertDataCall (some (JValue.jnum 215 (-1)))
        (some (JValue.jnum 40 0)) (some (JValue.jbool false))
        (some (JValue.jstr "ON")) (some (JValue.jstr "d1"))
        (some (JValue.jstr "1.0.0"))] ∧
    handleMQTTMessage (some (JValue.jobj [("messageType", JValue.jstr "serial"),
        ("serialMessage", JValue.jstr "boot ok")])) =
      [StorageCall.insertSerialMessageCall (some (JValue.jstr "boot ok"))] ∧
    handleMQTTMessage (some (JValue.jobj [("messageType", JValue.jstr "unknown")])) = [] ∧
    handleMQTTMessage none = [] := by
  refine ⟨(handleMQTTDispatchSpec _).1 rfl, (handleMQTTDispatchSpec _).2.1 rfl,
    (handleMQTTDispatchSpec _).2.2.1 ?_ ?_, (handleMQTTDispatchSpec
      (JValue.jobj [("messageType", JValue.jstr "unknown")])).2.2.2⟩
  · intro h
    rw [show getField (JValue.jobj [("messageType", JValue.jstr "unknown")])
        "messageType" = some (JValue.jstr "unknown") from rfl] at h
    injection h with h1
    injection h1 with h2
    exact absurd h2 (by decide)
  · intro h
    rw [show getField (JValue.jobj [("messageType", JValue.jstr "unknown")])
        "messageType" = some (JValue.jstr "unknown") from rfl] at h
    injection h with h1
    injection h1 with h2
    exact absurd h2 (by decide)

/-- C9: for a parsed object whose messageType is data, the dispatcher calls
insertData with the raw field lookups of the payload (none for every
missing field) and insertData appends a SensorData row carrying exactly
those possibly-absent values: no field-presence or type check happens
anywhere on the path. -/
theorem dataMessageInsertsUnvalidated (obj : JValue) (table : List SensorDataRow)
    (h : getField obj "messageType" = some (JValue.jstr "data")) :
    handleMQTTMessage (some obj) =
      [StorageCall.insertDataCall (getField obj "temperature")
        (getField obj "humidity") (some (JValue.jbool false))
        (getField obj "heaterState") (getField obj "deviceID")
        (getField obj "version")] ∧
    insertData table (getField obj "temperature") (getField obj "humidity")
        (some (JValue.jbool false)) (getField obj "heaterState")
        (getField obj "deviceID") (getField obj "version") =
      table ++ [{ temperature := getField obj "temperature",
                  humidity := getField obj "humidity",
                  fanState := some (JValue.jbool false),
                  heaterState := getField obj "heaterState",
                  deviceID := getField obj "deviceID",
                  firmwareVersion := getField obj "version" }] := by
  refine ⟨?_, rfl⟩
  simp [handleMQTTMessage, h, strictEqString]

theorem dataMessageInsertsUnvalidatedW :
    handleMQTTMessage (some (JValue.jobj [("messageType", JValue.jstr "data")])) =
      [StorageCall.insertDataCall none none (some (JValue.jbool false))
        none none none] ∧
    insertData [] none none (some (JValue.jbool false)) none none none =
      [{ temperature := none, humidity := none,
         fanState := some (JValue.jbool false), heaterState := none,
         deviceID := none, firmwareVersion := none }] :=
  dataMessageInsertsUnvalidated (JValue.jobj [("messageType", JValue.jstr "data")])
    [] rfl

/-! ## C7: duplicate registration -/

/-- C7: a registration attempt (passing the username and password format
checks) with a username already present in the users table answers the
specific duplicate-username response, distinct from the generic
storage-error response, and leaves the table unchanged. -/
theorem registerDuplicateConflict (table : List UserRow) (u p : String)
    (hu : validateUsername u = true) (hp : validatePassword p = true)
    (hdup : ∃ r ∈ table, r.username = u) :
    registerHandler table u p =
      ({ status := 400, body := "Username already exists" }, table) ∧
    (registerHandler table u p).1 ≠
      { status := 500, body := "Internal Server Error" } := by
  obtain ⟨r, hr, hru⟩ := hdup
  obtain ⟨b, hb⟩ := findEqSomeOfPred (fun x => x.username == u) table r hr
    (by simp [hru])
  have h1 : registerHandler table u p =
      ({ status := 400, body := "Username already exists" }, table) := by
    simp [registerHandler, hu, hp, findUserByUsername, hb]
  refine ⟨h1, ?_⟩
  rw [h1]
  show ({ status := 400, body := "Username already exists" } : HttpResponse) ≠
    { status := 500, body := "Internal Server Error" }
  decide

theorem registerDuplicateConflictW :
    registerHandler [⟨1, "alice", "Secret1!"⟩] "alice" "Abc12!" =
      ({ status := 400, body := "Username already exists" },
       [⟨1, "alice", "Secret1!"⟩]) ∧
    (registerHandler [⟨1, "alice", "Secret1!"⟩] "alice" "Abc12!").1 ≠
      { status := 500, body := "Internal Server Error" } :=
  registerDuplicateConflict [⟨1, "alice", "Secret1!"⟩] "alice" "Abc12!"
    (by decide) (by decide) ⟨⟨1, "alice", "Secret1!"⟩, List.mem_cons_self _ _, rfl⟩

/-! ## C8: GET /latest-stable-firmware -/

/-- C8: the handler answers the one 404 response in exactly two situations,
treated identically: the query returned no row (equivalently, the table is
empty), or the newest row exists but its firmwareVersion is absent (NULL)
or the empty string; otherwise it answers 200 with the firmwareVersion of
the newest row. -/
theorem latestStableFirmwareHandlerSpec (st : List LSFRow) :
    (latestStableFirmwareHandler st =
        { status := 404, body := "No stable firmware version found" } ↔
      fetchLatestStableFirmwareVersion st = none ∨
      fetchLatestStableFirmwareVersion st = some none ∨
      fetchLatestStableFirmwareVersion st = some (some "")) ∧
    (fetchLatestStableFirmwareVersion st = none ↔ st = []) ∧
    (∀ v : String, v ≠ "" →
      fetchLatestStableFirmwareVersion st = some (some v) →
      latestStableFirmwareHandler st = { status := 200, body := v }) := by
  refine ⟨?_, ?_, ?_⟩
  · cases hf : fetchLatestStableFirmwareVersion st with
    | none => simp [latestStableFirmwareHandler, hf]
    | some result =>
      cases result with
      | none => simp [latestStableFirmwareHandler, hf]
      | some v =>
        by_cases hv : v = ""
        · subst hv; simp [latestStableFirmwareHandler, hf]
        · have h200 : latestStableFirmwareHandler st =
              { status := 200, body := v } := by
            simp [latestStableFirmwareHandler, hf, hv]
          rw [h200]
          constructor
          · intro h
            injection h with h1 h2
            exact absurd h1 (by decide)
          · rintro (h | h | h)
            · exact Option.noConfusion h
            · injection h with h1
              exact Option.noConfusion h1
            · injection h with h1
              injection h1 with h2
              exact absurd h2 hv
  · cases st with
    | nil => simp [fetchLatestStableFirmwareVersion, maxTimestampRow]
    | cons r rs =>
      simp [fetchLatestStableFirmwareVersion, maxTimestampRow]
  · intro v hv hf
    simp [latestStableFirmwareHandler, hf, hv]

theorem latestStableFirmwareHandlerSpecW :
    latestStableFirmwareHandler [⟨1, some "1.0.0", 5⟩] =
      { status := 200, body := "1.0.0" } :=
  (latestStableFirmwareHandlerSpec [⟨1, some "1.0.0", 5⟩]).2.2 "1.0.0"
    (by decide) (by decide)

/-! ## C4: upload idempotence per version -/

theorem isPrefixOfAppendSelf (l₁ l₂ : List Char) :
    l₁.isPrefixOf (l₁ ++ l₂) = true := by
  induction l₁ with
  | nil => simp [List.isPrefixOf]
  | cons a as ih => simp [List.isPrefixOf, ih]

theorem destStartsWithVersionDir (v : String) :
    strStartsWith ("firmware/" ++ v ++ "/firmware.bin")
      ("firmware/" ++ v ++ "/") = true := by
  have h2 : ("/firmware.bin" : String).data =
      ("/" : String).data ++ ("firmware.bin" : String).data := by decide
  have h3 := isPrefixOfAppendSelf
      (("firmware/" : String).data ++ (v.data ++ ("/" : String).data))
      ("firmware.bin" : String).data
  simp only [strStartsWith, String.data_append, h2, List.append_assoc]
  simp only [List.append_assoc] at h3
  exact h3

theorem upload_filter_eq (bucket : List StoredObject) (file : UploadFile)
    (v : String) :
    (uploadFileToFirebaseStorage bucket file v).filter
      (fun o => strStartsWith o.name ("firmware/" ++ v ++ "/")) =
    [{ name := "firmware/" ++ v ++ "/firmware.bin", contents := file.buffer,
       contentType := file.mimetype }] := by
  simp only [uploadFileToFirebaseStorage]
  rw [List.filter_append]
  have h1 : ((bucket.filter
        (fun o => !(strStartsWith o.name ("firmware/" ++ v ++ "/")))).filter
        (fun o => o.name != ("firmware/" ++ v ++ "/firmware.bin"))).filter
        (fun o => strStartsWith o.name ("firmware/" ++ v ++ "/")) = [] := by
    rw [List.filter_eq_nil_iff]
    intro a ha
    have ha2 := (List.mem_filter.mp (List.mem_filter.mp ha).1).2
    simp only [Bool.not_eq_true'] at ha2
    simp [ha2]
  rw [h1]
  simp [destStartsWithVersionDir v]

/-- C4: upload is idempotent with respect to the stored objects of a
version: after a second successful upload of the same version (in fact
after any single upload) exactly one binary object lies under the prefix
firmware/(version)/, namely the newly saved firmware.bin, because every
existing object under that prefix is deleted before the save. -/
theorem uploadTwiceLeavesOneObject (bucket : List StoredObject)
    (f1 f2 : UploadFile) (v : String) :
    (uploadFileToFirebaseStorage (uploadFileToFirebaseStorage bucket f1 v) f2 v).filter
        (fun o => strStartsWith o.name ("firmware/" ++ v ++ "/")) =
      [{ name := "firmware/" ++ v ++ "/firmware.bin", contents := f2.buffer,
         contentType := f2.mimetype }] :=
  upload_filter_eq (uploadFileToFirebaseStorage bucket f1 v) f2 v

/-! ## C10: listing firmware versions -/

theorem all_takeWhile_pred (p : Char → Bool) (l : List Char) :
    ∀ c ∈ l.takeWhile p, p c = true := by
  induction l with
  | nil => intro c hc; cases hc
  | cons x xs ih =>
    intro c hc
    by_cases hx : p x = true
    · rw [List.takeWhile_cons_of_pos hx] at hc
      rcases List.mem_cons.mp hc with h | h
      · exact h ▸ hx
      · exact ih c h
    · rw [List.takeWhile_cons_of_neg hx] at hc
      cases hc

theorem takeWhile_append_cons (p : Char → Bool) (l₁ : List Char) (c : Char)
    (l₂ : List Char) (h₁ : ∀ x ∈ l₁, p x = true) (hc : p c = false) :
    (l₁ ++ c :: l₂).takeWhile p = l₁ := by
  induction l₁ with
  | nil =>
    simp only [List.nil_append]
    exact List.takeWhile_cons_of_neg (by simp [hc])
  | cons a as ih =>
    have ha := h₁ a (List.mem_cons_self a as)
    simp only [List.cons_append]
    rw [List.takeWhile_cons_of_pos ha,
      ih (fun x hx => h₁ x (List.mem_cons_of_mem _ hx))]

theorem dropWhile_append_cons (p : Char → Bool) (l₁ : List Char) (c : Char)
    (l₂ : List Char) (h₁ : ∀ x ∈ l₁, p x = true) (hc : p c = false) :
    (l₁ ++ c :: l₂).dropWhile p = c :: l₂ := by
  induction l₁ with
  | nil =>
    simp only [List.nil_append]
    exact List.dropWhile_cons_of_neg (by simp [hc])
  | cons a as ih =>
    have ha := h₁ a (List.mem_cons_self a as)
    simp only [List.cons_append]
    rw [List.dropWhile_cons_of_pos ha,
      ih (fun x hx => h₁ x (List.mem_cons_of_mem _ hx))]

theorem extractVersion_eq_some (k v : String) :
    extractVersion k = some v ↔
      v.data ≠ [] ∧ (∀ c ∈ v.data, digitOrDot c = true) ∧
        k = "firmware/" ++ v ++ "/firmware.bin" := by
  constructor
  · intro h
    simp only [extractVersion] at h
    split at h
    case isTrue htake =>
      split at h
      case isTrue hcond =>
        obtain ⟨hne, hafter⟩ := hcond
        injection h with hv
        have hvdata : v.data = (k.data.drop 9).takeWhile digitOrDot := by
          rw [← hv]
        refine ⟨by rw [hvdata]; exact hne, ?_, ?_⟩
        · intro c hc
          rw [hvdata] at hc
          exact all_takeWhile_pred digitOrDot _ c hc
        · apply stringEqOfData
          have hdecomp : k.data = k.data.take 9 ++ k.data.drop 9 :=
            (List.take_append_drop 9 k.data).symm
          rw [hdecomp, htake]
          have hrest : k.data.drop 9 =
              (k.data.drop 9).takeWhile digitOrDot ++
                (k.data.drop 9).dropWhile digitOrDot :=
            (List.takeWhile_append_dropWhile digitOrDot _).symm
          rw [hrest, hafter, ← hvdata]
          simp [String.data_append]
      case isFalse => exact absurd h (by simp)
    case isFalse => exact absurd h (by simp)
  · rintro ⟨hne, hall, hk⟩
    subst hk
    have hdata : ("firmware/" ++ v ++ "/firmware.bin").data =
        ("firmware/" : String).data ++
          (v.data ++ '/' :: ("firmware.bin" : String).data) := by
      have h2 : ("/firmware.bin" : String).data =
          '/' :: ("firmware.bin" : String).data := by decide
      simp [String.data_append, h2]
    simp only [extractVersion, hdata]
    rw [show (9 : Nat) = ("firmware/" : String).data.length from rfl,
      List.take_left, List.drop_left]
    rw [takeWhile_append_cons digitOrDot v.data '/' _ hall (by decide),
      dropWhile_append_cons digitOrDot v.data '/' _ hall (by decide)]
    rw [if_pos rfl, if_pos ⟨hne, by decide⟩]

theorem mem_stepVersions (acc : List String) (f v : String) :
    v ∈ stepVersions acc f ↔ v ∈ acc ∨ extractVersion f = some v := by
  unfold stepVersions
  cases hf : extractVersion f with
  | none => simp
  | some w =>
    by_cases hw : w ∈ acc
    · simp only [if_pos hw]
      constructor
      · exact Or.inl
      · rintro (h | h)
        · exact h
        · injection h with h
          exact h ▸ hw
    · simp only [if_neg hw, List.mem_append, List.mem_singleton]
      constructor
      · rintro (h | h)
        · exact Or.inl h
        · exact Or.inr (by rw [h])
      · rintro (h | h)
        · exact Or.inl h
        · injection h with h
          exact Or.inr h.symm

theorem nodup_stepVersions (acc : List String) (f : String) (h : acc.Nodup) :
    (stepVersions acc f).Nodup := by
  unfold stepVersions
  cases extractVersion f with
  | none => exact h
  | some w =>
    by_cases hw : w ∈ acc
    · simpa [hw] using h
    · simp [hw, List.nodup_append, h, List.disjoint_singleton]

theorem mem_foldl_stepVersions (files : List String) :
    ∀ (acc : List String) (v : String),
      v ∈ files.foldl stepVersions acc ↔
        v ∈ acc ∨ ∃ f, f ∈ files ∧ extractVersion f = some v := by
  induction files with
  | nil => intro acc v; simp
  | cons g gs ih =>
    intro acc v
    simp only [List.foldl_cons]
    rw [ih (stepVersions acc g) v, mem_stepVersions]
    constructor
    · rintro ((h | h) | ⟨f, hf, hfv⟩)
      · exact Or.inl h
      · exact Or.inr ⟨g, List.mem_cons_self g gs, h⟩
      · exact Or.inr ⟨f, List.mem_cons_of_mem _ hf, hfv⟩
    · rintro (h | ⟨f, hf, hfv⟩)
      · exact Or.inl (Or.inl h)
      · rcases List.mem_cons.mp hf with h | h
        · exact Or.inl (Or.inr (h ▸ hfv))
        · exact Or.inr ⟨f, h, hfv⟩

theorem nodup_foldl_stepVersions (files : List String) :
    ∀ acc : List String, acc.Nodup → (files.foldl stepVersions acc).Nodup := by
  induction files with
  | nil => intro acc h; exact h
  | cons g gs ih => intro acc h; exact ih _ (nodup_stepVersions acc g h)

/-- C10: listFirmwareVersions returns, without duplicates, exactly the
strings v such that some object key equals firmware/v/firmware.bin and v
is a nonempty string of digits and dots only; such a v need not be a valid
major.minor.patch version (the characterization admits strings like 1..2
or 1.2.3.4), and keys of any other shape contribute nothing. -/
theorem listFirmwareVersionsSpec (files : List String) (v : String) :
    (listFirmwareVersions files).Nodup ∧
      (v ∈ listFirmwareVersions files ↔
        v.data ≠ [] ∧ (∀ c ∈ v.data, digitOrDot c = true) ∧
          ("firmware/" ++ v ++ "/firmware.bin") ∈ files) := by
  refine ⟨nodup_foldl_stepVersions files [] List.nodup_nil, ?_⟩
  rw [listFirmwareVersions, mem_foldl_stepVersions]
  simp only [List.not_mem_nil, false_or]
  constructor
  · rintro ⟨f, hf, hfv⟩
    obtain ⟨hne, hall, hk⟩ := (extractVersion_eq_some f v).mp hfv
    exact ⟨hne, hall, hk ▸ hf⟩
  · rintro ⟨hne, hall, hk⟩
    exact ⟨_, hk, (extractVersion_eq_some _ v).mpr ⟨hne, hall, rfl⟩⟩
